import Mathlib

/-!
Shallow embedding of the `AntiBotPresaleContract` Solidity contract
(presale engine with anti-bot admission control, fair-launch pricing,
vesting and refunds).

Conventions of the embedding:
* `uint256` values are modelled as `Nat`.  Solidity 0.8 checked
  subtraction and division are modelled by `csub` / `cdiv`, which return
  `none` exactly where the EVM would revert with an arithmetic error.
* Addresses are `Nat`; `bytes` signatures are `List Nat`;
  `mapping`s are total functions out of the key type (the EVM default
  value is the all-zero record).
* A reverting call is an `Except Err` error; the caller's state is
  unchanged in that case (EVM rollback), which `applyOp` makes explicit.
* ECDSA recovery of `keccak(msg.sender, address(this))` is abstracted as
  an injected function `recover : Nat → List Nat → Nat` from the buyer
  address and the signature bytes to the recovered signer address.
* The sale token's ERC20 balance held by the contract is the state field
  `tokenBalance`; a token transfer out of the contract is modelled as an
  external effect decreasing that balance.
-/

namespace Presale

structure SaleInfo where
  tokenPrice : Nat
  softCap : Nat
  hardCap : Nat
  minPurchase : Nat
  maxPurchase : Nat
  startTime : Nat
  endTime : Nat
  whitelistEnabled : Bool
  deriving Repr, DecidableEq

structure VestingInfo where
  enabled : Bool
  initialRelease : Nat
  vestingDuration : Nat
  deriving Repr, DecidableEq

structure AntiBotInfo where
  protectionDelay : Nat
  maxGasPrice : Nat
  walletCooldown : Nat
  signatureRequired : Bool
  deriving Repr, DecidableEq

structure Participant where
  contribution : Nat
  tokenAmount : Nat
  claimedTokens : Nat
  isWhitelisted : Bool
  lastClaimTime : Nat
  lastPurchaseTime : Nat
  deriving Repr, DecidableEq

/-- The EVM default (all-zero) participant record. -/
def Participant.zero : Participant :=
  { contribution := 0, tokenAmount := 0, claimedTokens := 0,
    isWhitelisted := false, lastClaimTime := 0, lastPurchaseTime := 0 }

/-- Full storage of the contract. -/
structure CState where
  saleInfo : SaleInfo
  vestingInfo : VestingInfo
  antiBotInfo : AntiBotInfo
  participants : Nat → Participant
  whitelist : Nat → Bool
  usedSignatures : List Nat → Bool
  owner : Nat
  signerAddress : Nat
  totalRaised : Nat
  totalParticipants : Nat
  totalTokensSold : Nat
  saleFinalized : Bool
  refundsEnabled : Bool
  isFairlaunch : Bool
  paused : Bool
  tokenBalance : Nat

/-- Revert reasons of the contract (each corresponds to one `require`
message or modifier failure in the source). -/
inductive Err where
  | enforcedPause
  | saleNotStarted
  | saleEnded
  | saleIsFinalized
  | notWhitelisted
  | protectionActive
  | gasPriceTooHigh
  | cooldownActive
  | signatureMissing
  | signatureReused
  | signatureInvalid
  | belowMinimum
  | aboveMaximum
  | hardCapExceeded
  | walletCapExceeded
  | saleStillActive
  | softCapNotReached
  | notFinalized
  | noContribution
  | nothingToClaim
  | arithmeticRevert
  | softCapReached
  | refundsDisabled
  | alreadyFinalized
  | notOwner
  | invalidSigner
  | expectedPause
  deriving Repr, DecidableEq

/-- Solidity 0.8 checked subtraction: reverts (returns `none`) on
underflow. -/
def csub (a b : Nat) : Option Nat :=
  if b ≤ a then some (a - b) else none

/-- Solidity 0.8 checked division: reverts (returns `none`) on division
by zero. -/
def cdiv (a b : Nat) : Option Nat :=
  if b = 0 then none else some (a / b)

/-- Token-amount basis of `getClaimableAmount` (source lines 230–236):
recomputed proportionally from the current balance under fair-launch,
otherwise the stored `tokenAmount`. -/
def claimBasis (s : CState) (a : Nat) : Nat :=
  if s.isFairlaunch = true ∧ 0 < s.totalRaised then
    (s.participants a).contribution * (s.tokenBalance + s.totalTokensSold)
      / s.totalRaised
  else (s.participants a).tokenAmount

/-- Vesting schedule of `getClaimableAmount` (source lines 240–254):
claimable amount at time `now` for a basis of `basis` tokens of which
`claimed` are already claimed. -/
def vestedClaimable (vi : VestingInfo) (endTime basis claimed now : Nat) :
    Option Nat :=
  match csub basis (basis * vi.initialRelease / 100) with
  | none => none
  | some vestedAmount =>
    if now ≤ endTime then csub (basis * vi.initialRelease / 100) claimed
    else
      match cdiv (vestedAmount * (now - endTime)) vi.vestingDuration with
      | none => none
      | some vt =>
        csub (basis * vi.initialRelease / 100 +
          (if vestedAmount < vt then vestedAmount else vt)) claimed

/-- `getClaimableAmount(address)` (source lines 223–255): claimable
token amount for a participant at time `now` (`block.timestamp`). -/
def getClaimableAmount (s : CState) (a : Nat) (now : Nat) : Option Nat :=
  if (s.participants a).contribution = 0 then some 0
  else if s.totalRaised < s.saleInfo.softCap then some 0
  else if s.saleFinalized = false then some 0
  else if s.vestingInfo.enabled = false then
    csub (claimBasis s a) (s.participants a).claimedTokens
  else
    vestedClaimable s.vestingInfo s.saleInfo.endTime (claimBasis s a)
      (s.participants a).claimedTokens now

/-- Successful-purchase state update of `buyTokens` (source lines
157–191): mark the signature used when required, then credit the
participant and the aggregates. -/
def buySuccess (s : CState) (sender msgValue now : Nat)
    (signature : List Nat) : CState :=
  let s1 :=
    if s.antiBotInfo.signatureRequired = true then
      { s with usedSignatures :=
          fun b => if b = signature then true else s.usedSignatures b }
    else s
  let p := s1.participants sender
  let tokenAmount :=
    if s.isFairlaunch = true then 0 else msgValue * s.saleInfo.tokenPrice
  { s1 with
    participants := fun a =>
      if a = sender then
        { p with contribution := p.contribution + msgValue,
                 tokenAmount := p.tokenAmount + tokenAmount,
                 lastPurchaseTime := now }
      else s1.participants a,
    totalParticipants :=
      if p.contribution = 0 then s1.totalParticipants + 1
      else s1.totalParticipants,
    totalRaised := s1.totalRaised + msgValue,
    totalTokensSold := s1.totalTokensSold + tokenAmount }

/-- First failing check of the modifiers `whenNotPaused`, `saleActive`,
`onlyWhitelisted` and `antiBotProtection` (source lines 79–120 and
144), in the order Solidity evaluates them; each guard is the exact
negation of the corresponding `require`. -/
def modifierError? (s : CState) (sender gasprice now : Nat) : Option Err :=
  if s.paused = true then some .enforcedPause
  else if now < s.saleInfo.startTime then some .saleNotStarted
  else if s.saleInfo.endTime < now then some .saleEnded
  else if s.saleFinalized = true then some .saleIsFinalized
  else if s.saleInfo.whitelistEnabled = true ∧ s.whitelist sender = false then
    some .notWhitelisted
  else if now < s.saleInfo.startTime + s.antiBotInfo.protectionDelay ∧
      s.whitelist sender = false then some .protectionActive
  else if 0 < s.antiBotInfo.maxGasPrice ∧
      s.antiBotInfo.maxGasPrice < gasprice then some .gasPriceTooHigh
  else if 0 < s.antiBotInfo.walletCooldown ∧
      (s.participants sender).lastPurchaseTime ≠ 0 ∧
      now < (s.participants sender).lastPurchaseTime +
        s.antiBotInfo.walletCooldown then some .cooldownActive
  else none

/-- First failing check of the signature verification block of
`buyTokens` (source lines 146–155). -/
def signatureError? (recover : Nat → List Nat → Nat) (s : CState)
    (sender : Nat) (signature : List Nat) : Option Err :=
  if s.antiBotInfo.signatureRequired = true ∧ signature.length = 0 then
    some .signatureMissing
  else if s.antiBotInfo.signatureRequired = true ∧
      s.usedSignatures signature = true then some .signatureReused
  else if s.antiBotInfo.signatureRequired = true ∧
      recover sender signature ≠ s.signerAddress then some .signatureInvalid
  else none

/-- First failing amount/cap check of `buyTokens` (source lines
161–170). -/
def purchaseError? (s : CState) (sender msgValue : Nat) : Option Err :=
  if msgValue < s.saleInfo.minPurchase then some .belowMinimum
  else if s.saleInfo.maxPurchase < msgValue then some .aboveMaximum
  else if s.isFairlaunch = false ∧
      s.saleInfo.hardCap < s.totalRaised + msgValue then some .hardCapExceeded
  else if s.saleInfo.maxPurchase <
      (s.participants sender).contribution + msgValue then
    some .walletCapExceeded
  else none

/-- First failing check of `buyTokens` (source lines 144–170), or
`none` when the purchase is accepted. -/
def buyError? (recover : Nat → List Nat → Nat) (s : CState)
    (sender msgValue gasprice now : Nat) (signature : List Nat) :
    Option Err :=
  match modifierError? s sender gasprice now with
  | some e => some e
  | none =>
    match signatureError? recover s sender signature with
    | some e => some e
    | none => purchaseError? s sender msgValue

/-- `buyTokens(bytes signature)` (source lines 144–197): reject with
the first failing check, otherwise apply the purchase. -/
def buyTokens (recover : Nat → List Nat → Nat) (s : CState)
    (sender msgValue gasprice now : Nat) (signature : List Nat) :
    Except Err CState :=
  match buyError? recover s sender msgValue gasprice now signature with
  | some e => .error e
  | none => .ok (buySuccess s sender msgValue now signature)

/-- Successful-claim state update of `claimTokens` (source lines
212–215): record the claimed amount and transfer it out of the
contract's token balance. -/
def claimSuccess (s : CState) (sender now amt : Nat) : CState :=
  let p := s.participants sender
  { s with
    participants := fun a =>
      if a = sender then
        { p with claimedTokens := p.claimedTokens + amt,
                 lastClaimTime := now }
      else s.participants a,
    tokenBalance := s.tokenBalance - amt }

/-- `claimTokens()` (source lines 202–218); returns the updated state
and the amount transferred. -/
def claimTokens (s : CState) (sender now : Nat) :
    Except Err (CState × Nat) :=
  if now ≤ s.saleInfo.endTime ∧ s.saleFinalized = false then
    .error .saleStillActive
  else if s.totalRaised < s.saleInfo.softCap then .error .softCapNotReached
  else if s.saleFinalized = false then .error .notFinalized
  else if (s.participants sender).contribution = 0 then .error .noContribution
  else
    match getClaimableAmount s sender now with
    | none => .error .arithmeticRevert
    | some claimableAmount =>
      if claimableAmount = 0 then .error .nothingToClaim
      else .ok (claimSuccess s sender now claimableAmount, claimableAmount)

/-- Successful-refund state update of `claimRefund` (source lines
267–269): zero the participant's contribution and token amount. -/
def refundSuccess (s : CState) (sender : Nat) : CState :=
  let p := s.participants sender
  { s with
    participants := fun a =>
      if a = sender then { p with contribution := 0, tokenAmount := 0 }
      else s.participants a }

/-- `claimRefund()` (source lines 260–274); returns the updated state
and the refunded amount. -/
def claimRefund (s : CState) (sender now : Nat) :
    Except Err (CState × Nat) :=
  if now ≤ s.saleInfo.endTime ∧ s.saleFinalized = false then
    .error .saleStillActive
  else if s.saleInfo.softCap ≤ s.totalRaised then .error .softCapReached
  else if s.refundsEnabled = false then .error .refundsDisabled
  else if (s.participants sender).contribution = 0 then .error .noContribution
  else .ok (refundSuccess s sender, (s.participants sender).contribution)

/-- `finalizeSale()` (source lines 279–293). -/
def finalizeSale (s : CState) (sender : Nat) : Except Err CState :=
  if sender ≠ s.owner then .error .notOwner
  else if s.saleFinalized = true then .error .alreadyFinalized
  else if s.totalRaised < s.saleInfo.softCap then
    .ok { s with saleFinalized := true, refundsEnabled := true }
  else if s.isFairlaunch = true then
    .ok { s with saleFinalized := true, totalTokensSold := s.tokenBalance }
  else .ok { s with saleFinalized := true }

/-- One loop iteration of `updateWhitelist` (source lines 299–305):
set `whitelist[a] := status`, and when `status` holds and the address
has a nonzero contribution, also set the participant's denormalized
`isWhitelisted` flag. -/
def updateWhitelistOne (s : CState) (a : Nat) (status : Bool) : CState :=
  if status = true ∧ 0 < (s.participants a).contribution then
    { s with
      whitelist := fun x => if x = a then status else s.whitelist x,
      participants := fun x =>
        if x = a then { s.participants a with isWhitelisted := true }
        else s.participants x }
  else { s with whitelist := fun x => if x = a then status else s.whitelist x }

/-- `updateWhitelist(address[],bool)` (source lines 298–306). -/
def updateWhitelist (s : CState) (sender : Nat) (addrs : List Nat)
    (status : Bool) : Except Err CState :=
  if sender ≠ s.owner then .error .notOwner
  else .ok (addrs.foldl (fun st a => updateWhitelistOne st a status) s)

/-- `updateAntiBotProtection` (source lines 311–321). -/
def updateAntiBotProtection (s : CState) (sender pd mg wc : Nat)
    (sr : Bool) : Except Err CState :=
  if sender ≠ s.owner then .error .notOwner
  else .ok { s with antiBotInfo :=
    { protectionDelay := pd, maxGasPrice := mg, walletCooldown := wc,
      signatureRequired := sr } }

/-- `updateSignerAddress` (source lines 326–329). -/
def updateSignerAddress (s : CState) (sender newSigner : Nat) :
    Except Err CState :=
  if sender ≠ s.owner then .error .notOwner
  else if newSigner = 0 then .error .invalidSigner
  else .ok { s with signerAddress := newSigner }

/-- `emergencyWithdraw` (source lines 334–336); `isSaleToken` selects
whether the withdrawn ERC20 is the sale token tracked by
`tokenBalance`. -/
def emergencyWithdraw (s : CState) (sender : Nat) (isSaleToken : Bool)
    (amount : Nat) : Except Err CState :=
  if sender ≠ s.owner then .error .notOwner
  else if isSaleToken = true then
    .ok { s with tokenBalance := s.tokenBalance - amount }
  else .ok s

/-- `pause()` (source lines 341–343, OpenZeppelin `_pause`). -/
def pauseC (s : CState) (sender : Nat) : Except Err CState :=
  if sender ≠ s.owner then .error .notOwner
  else if s.paused = true then .error .enforcedPause
  else .ok { s with paused := true }

/-- `unpause()` (source lines 345–347, OpenZeppelin `_unpause`). -/
def unpauseC (s : CState) (sender : Nat) : Except Err CState :=
  if sender ≠ s.owner then .error .notOwner
  else if s.paused = false then .error .expectedPause
  else .ok { s with paused := false }

/-- View record returned by `getParticipantInfo` (source lines
386–418). -/
structure ParticipantInfo where
  contribution : Nat
  tokenAmount : Nat
  claimedTokens : Nat
  claimableTokens : Option Nat
  isWhitelisted : Bool
  cooldownEndTime : Nat

/-- `getParticipantInfo(address)` (source lines 386–418). -/
def getParticipantInfo (s : CState) (a now : Nat) : ParticipantInfo :=
  let p := s.participants a
  let calculatedTokenAmount :=
    if s.isFairlaunch = true ∧ s.saleFinalized = true ∧ 0 < s.totalRaised then
      p.contribution * (s.tokenBalance + s.totalTokensSold) / s.totalRaised
    else p.tokenAmount
  let cooldownEnd :=
    if 0 < p.lastPurchaseTime ∧ 0 < s.antiBotInfo.walletCooldown then
      (if p.lastPurchaseTime + s.antiBotInfo.walletCooldown < now then 0
       else p.lastPurchaseTime + s.antiBotInfo.walletCooldown)
    else 0
  { contribution := p.contribution,
    tokenAmount := calculatedTokenAmount,
    claimedTokens := p.claimedTokens,
    claimableTokens := getClaimableAmount s a now,
    isWhitelisted := p.isWhitelisted || s.whitelist a,
    cooldownEndTime := cooldownEnd }

/-- One external state-changing call to the contract. -/
inductive Op where
  | buy (sender msgValue gasprice now : Nat) (signature : List Nat)
  | claim (sender now : Nat)
  | refund (sender now : Nat)
  | finalize (sender : Nat)
  | setWhitelist (sender : Nat) (addrs : List Nat) (status : Bool)
  | setAntiBot (sender pd mg wc : Nat) (sr : Bool)
  | setSigner (sender newSigner : Nat)
  | doPause (sender : Nat)
  | doUnpause (sender : Nat)
  | withdraw (sender : Nat) (isSaleToken : Bool) (amount : Nat)

/-- Transaction semantics: apply one call; a revert leaves the state
unchanged (EVM rollback). -/
def applyOp (recover : Nat → List Nat → Nat) (s : CState) (op : Op) :
    CState :=
  match op with
  | .buy sender v g now sig =>
    match buyTokens recover s sender v g now sig with
    | .ok s1 => s1
    | .error _ => s
  | .claim sender now =>
    match claimTokens s sender now with
    | .ok (s1, _) => s1
    | .error _ => s
  | .refund sender now =>
    match claimRefund s sender now with
    | .ok (s1, _) => s1
    | .error _ => s
  | .finalize sender =>
    match finalizeSale s sender with
    | .ok s1 => s1
    | .error _ => s
  | .setWhitelist sender addrs status =>
    match updateWhitelist s sender addrs status with
    | .ok s1 => s1
    | .error _ => s
  | .setAntiBot sender pd mg wc sr =>
    match updateAntiBotProtection s sender pd mg wc sr with
    | .ok s1 => s1
    | .error _ => s
  | .setSigner sender ns =>
    match updateSignerAddress s sender ns with
    | .ok s1 => s1
    | .error _ => s
  | .doPause sender =>
    match pauseC s sender with
    | .ok s1 => s1
    | .error _ => s
  | .doUnpause sender =>
    match unpauseC s sender with
    | .ok s1 => s1
    | .error _ => s
  | .withdraw sender ist amount =>
    match emergencyWithdraw s sender ist amount with
    | .ok s1 => s1
    | .error _ => s

/-- Run a sequence of external calls. -/
def run (recover : Nat → List Nat → Nat) (s : CState) (ops : List Op) :
    CState :=
  ops.foldl (applyOp recover) s

/-! ### Concrete sale instances used to exercise the model -/

/-- A fair-launch sale right after deployment: soft cap 50, sale window
[0, 100], all anti-bot features off, 100 sale tokens already deposited
in the contract. -/
def fairInit : CState where
  saleInfo := { tokenPrice := 0, softCap := 50, hardCap := 1000,
                minPurchase := 1, maxPurchase := 50, startTime := 0,
                endTime := 100, whitelistEnabled := false }
  vestingInfo := { enabled := false, initialRelease := 0, vestingDuration := 0 }
  antiBotInfo := { protectionDelay := 0, maxGasPrice := 0, walletCooldown := 0,
                   signatureRequired := false }
  participants := fun _ => Participant.zero
  whitelist := fun _ => false
  usedSignatures := fun _ => false
  owner := 99
  signerAddress := 7
  totalRaised := 0
  totalParticipants := 0
  totalTokensSold := 0
  saleFinalized := false
  refundsEnabled := false
  isFairlaunch := true
  paused := false
  tokenBalance := 100

/-- A trivial signature-recovery oracle: every signature recovers to
address 7. -/
def recov0 : Nat → List Nat → Nat := fun _ _ => 7

/-- The fair-launch sale of `fairInit` after buyers 1 and 2 each
contribute 50 during the sale and the owner finalizes. -/
def fairFinal : CState :=
  run recov0 fairInit [.buy 1 50 0 10 [], .buy 2 50 0 10 [], .finalize 99]

/-- A finalized fixed-price sale with vesting: initial release 20%,
vesting duration 864000 s, participant 1 holds `tokenAmount = 100`
(the spec scenario's basis) with nothing claimed yet. -/
def vestState : CState :=
  { fairInit with
    isFairlaunch := false,
    saleFinalized := true,
    totalRaised := 60,
    vestingInfo := { enabled := true, initialRelease := 20,
                     vestingDuration := 864000 },
    saleInfo := { tokenPrice := 2, softCap := 50, hardCap := 1000,
                  minPurchase := 1, maxPurchase := 100, startTime := 0,
                  endTime := 1000, whitelistEnabled := false },
    participants := fun a =>
      if a = 1 then
        { Participant.zero with contribution := 50, tokenAmount := 100 }
      else Participant.zero }

/-- `vestState` with the initial release set to 100%. -/
def vest100 : CState :=
  { vestState with vestingInfo :=
      { enabled := true, initialRelease := 100, vestingDuration := 864000 } }

/-- `fairInit` turned into a fixed-price sale at 2 tokens per unit. -/
def fixedInit : CState :=
  { fairInit with
    isFairlaunch := false,
    saleInfo := { tokenPrice := 2, softCap := 50, hardCap := 1000,
                  minPurchase := 1, maxPurchase := 50, startTime := 0,
                  endTime := 100, whitelistEnabled := false } }

/-- `fairInit` with a 3600 s anti-bot protection delay and a long sale
window. -/
def protInit : CState :=
  { fairInit with
    saleInfo := { tokenPrice := 0, softCap := 50, hardCap := 1000,
                  minPurchase := 1, maxPurchase := 50, startTime := 0,
                  endTime := 100000, whitelistEnabled := false },
    antiBotInfo := { protectionDelay := 3600, maxGasPrice := 0,
                     walletCooldown := 0, signatureRequired := false } }

/-- `fairInit` with signature authorization required and the signature
`[1]` already consumed. -/
def sigUsedInit : CState :=
  { fairInit with
    antiBotInfo := { protectionDelay := 0, maxGasPrice := 0,
                     walletCooldown := 0, signatureRequired := true },
    usedSignatures := fun b => decide (b = [1]) }

/-- A failed fixed-price sale after finalization: 10 raised against a
soft cap of 50, refunds enabled, participant 1 contributed the 10. -/
def refundState : CState :=
  { fairInit with
    isFairlaunch := false,
    saleFinalized := true,
    refundsEnabled := true,
    totalRaised := 10,
    participants := fun a =>
      if a = 1 then { Participant.zero with contribution := 10 }
      else Participant.zero }

/-- A whitelist-required sale where participant 1 carries the
denormalized `isWhitelisted` flag but is absent from the whitelist
mapping. -/
def wlFlagState : CState :=
  { fairInit with
    saleInfo := { tokenPrice := 0, softCap := 50, hardCap := 1000,
                  minPurchase := 1, maxPurchase := 50, startTime := 0,
                  endTime := 100, whitelistEnabled := true },
    participants := fun a =>
      if a = 1 then
        { Participant.zero with contribution := 5, isWhitelisted := true }
      else Participant.zero }

/-! ### Purchase traces -/

/-- One attempted `buyTokens` call. -/
structure BuyEv where
  sender : Nat
  msgValue : Nat
  gasprice : Nat
  now : Nat
  signature : List Nat
  deriving Repr, DecidableEq

/-- Apply one purchase attempt; a rejected attempt leaves the state
unchanged. -/
def buyStep (recover : Nat → List Nat → Nat) (s : CState) (e : BuyEv) :
    CState :=
  match buyTokens recover s e.sender e.msgValue e.gasprice e.now e.signature with
  | .ok s1 => s1
  | .error _ => s

/-- Run a sequence of purchase attempts. -/
def runBuys (recover : Nat → List Nat → Nat) (s : CState)
    (evs : List BuyEv) : CState :=
  evs.foldl (buyStep recover) s

/-- The sub-sequence of purchase attempts that are accepted, threading
the evolving state. -/
def acceptedBuys (recover : Nat → List Nat → Nat) :
    CState → List BuyEv → List BuyEv
  | _, [] => []
  | s, e :: rest =>
    match buyTokens recover s e.sender e.msgValue e.gasprice e.now e.signature with
    | .ok s1 => e :: acceptedBuys recover s1 rest
    | .error _ => acceptedBuys recover s rest

/-! ### Basic lemmas -/

theorem buyTokens_ok_iff (recover : Nat → List Nat → Nat) (s : CState)
    (sender v g now : Nat) (sig : List Nat) (s1 : CState) :
    buyTokens recover s sender v g now sig = .ok s1 ↔
      buyError? recover s sender v g now sig = none ∧
        s1 = buySuccess s sender v now sig := by
  unfold buyTokens
  cases hE : buyError? recover s sender v g now sig <;> simp [eq_comm]

theorem buyTokens_error_iff (recover : Nat → List Nat → Nat) (s : CState)
    (sender v g now : Nat) (sig : List Nat) (e : Err) :
    buyTokens recover s sender v g now sig = .error e ↔
      buyError? recover s sender v g now sig = some e := by
  unfold buyTokens
  cases hE : buyError? recover s sender v g now sig <;> simp

theorem modifierError?_ne_pa (s : CState) (sender g now : Nat)
    (hge : s.saleInfo.startTime + s.antiBotInfo.protectionDelay ≤ now) :
    modifierError? s sender g now ≠ some .protectionActive := by
  unfold modifierError?
  split_ifs with a1 a2 a3 a4 a5 a6 a7 a8 <;> simp
  exact absurd a6.1 (Nat.not_lt.mpr hge)

theorem signatureError?_ne_pa (recover : Nat → List Nat → Nat)
    (s : CState) (sender : Nat) (sig : List Nat) :
    signatureError? recover s sender sig ≠ some .protectionActive := by
  unfold signatureError?
  split_ifs <;> simp

theorem purchaseError?_ne_pa (s : CState) (sender v : Nat) :
    purchaseError? s sender v ≠ some .protectionActive := by
  unfold purchaseError?
  split_ifs <;> simp

theorem signatureError?_ne_none_of_used (recover : Nat → List Nat → Nat)
    (s : CState) (sender : Nat) (sig : List Nat)
    (hsr : s.antiBotInfo.signatureRequired = true)
    (hused : s.usedSignatures sig = true) :
    signatureError? recover s sender sig ≠ none := by
  unfold signatureError?
  split_ifs with a b c
  · simp
  · simp
  · simp
  · exact fun _ => b ⟨hsr, hused⟩

theorem bool_ne_false (b : Bool) (h : ¬(b = false)) : b = true := by
  cases b
  · exact absurd rfl h
  · rfl

theorem claimTokens_ok_iff (s : CState) (sender now : Nat) (s1 : CState)
    (amt : Nat) :
    claimTokens s sender now = .ok (s1, amt) ↔
      ¬(now ≤ s.saleInfo.endTime ∧ s.saleFinalized = false) ∧
      s.saleInfo.softCap ≤ s.totalRaised ∧
      s.saleFinalized = true ∧
      (s.participants sender).contribution ≠ 0 ∧
      getClaimableAmount s sender now = some amt ∧ amt ≠ 0 ∧
      s1 = claimSuccess s sender now amt := by
  unfold claimTokens
  split_ifs with h1 h2 h3 h4
  · constructor
    · intro hE; cases hE
    · rintro ⟨ha, -⟩; exact absurd h1 ha
  · constructor
    · intro hE; cases hE
    · rintro ⟨-, hb, -⟩; omega
  · constructor
    · intro hE; cases hE
    · rintro ⟨-, -, hcf, -⟩; rw [h3] at hcf; cases hcf
  · constructor
    · intro hE; cases hE
    · rintro ⟨-, -, -, hd, -⟩; exact absurd h4 hd
  · cases hC : getClaimableAmount s sender now with
    | none =>
      constructor
      · intro hE; cases hE
      · rintro ⟨-, -, -, -, hCa, -⟩
        cases hCa
    | some c =>
      show (if c = 0 then Except.error Err.nothingToClaim
            else Except.ok (claimSuccess s sender now c, c))
          = Except.ok (s1, amt) ↔ _
      by_cases hc0 : c = 0
      · rw [if_pos hc0]
        constructor
        · intro hE; cases hE
        · rintro ⟨-, -, -, -, hCa, hne, -⟩
          injection hCa with hCa
          omega
      · rw [if_neg hc0]
        constructor
        · intro hE
          injection hE with hE
          injection hE with hE1 hE2
          subst hE2
          exact ⟨h1, Nat.not_lt.mp h2, bool_ne_false _ h3, h4, rfl, hc0,
            hE1.symm⟩
        · rintro ⟨-, -, -, -, hCa, -, hs1⟩
          injection hCa with hCa
          subst hCa
          rw [hs1]

theorem claimRefund_ok_iff (s : CState) (sender now : Nat) (s1 : CState)
    (r : Nat) :
    claimRefund s sender now = .ok (s1, r) ↔
      ¬(now ≤ s.saleInfo.endTime ∧ s.saleFinalized = false) ∧
      s.totalRaised < s.saleInfo.softCap ∧
      s.refundsEnabled = true ∧
      (s.participants sender).contribution ≠ 0 ∧
      s1 = refundSuccess s sender ∧
      r = (s.participants sender).contribution := by
  unfold claimRefund
  split_ifs with h1 h2 h3 h4
  · constructor
    · intro hE; cases hE
    · rintro ⟨ha, -⟩; exact absurd h1 ha
  · constructor
    · intro hE; cases hE
    · rintro ⟨-, hb, -⟩; omega
  · constructor
    · intro hE; cases hE
    · rintro ⟨-, -, hcf, -⟩; rw [h3] at hcf; cases hcf
  · constructor
    · intro hE; cases hE
    · rintro ⟨-, -, -, hd, -⟩; exact absurd h4 hd
  · constructor
    · intro hE
      injection hE with hE
      injection hE with hE1 hE2
      exact ⟨h1, Nat.not_le.mp h2, bool_ne_false _ h3, h4, hE1.symm,
        hE2.symm⟩
    · rintro ⟨-, -, -, -, hs1, hr⟩
      rw [hs1, hr]

theorem buySuccess_used_mono (s : CState) (sender v now : Nat)
    (signature sig : List Nat) (h : s.usedSignatures sig = true) :
    (buySuccess s sender v now signature).usedSignatures sig = true := by
  unfold buySuccess
  by_cases hsr : s.antiBotInfo.signatureRequired = true
  · by_cases hq : sig = signature
    · simp [hsr, hq]
    · simp [hsr, hq, h]
  · simp [hsr, h]

theorem updateWhitelistOne_used (st : CState) (a : Nat) (status : Bool) :
    (updateWhitelistOne st a status).usedSignatures = st.usedSignatures := by
  unfold updateWhitelistOne
  split_ifs <;> rfl

theorem foldl_updateWhitelist_used (addrs : List Nat) (status : Bool)
    (st : CState) :
    (addrs.foldl (fun st a => updateWhitelistOne st a status)
      st).usedSignatures = st.usedSignatures := by
  induction addrs generalizing st with
  | nil => rfl
  | cons a rest ih => rw [List.foldl_cons, ih, updateWhitelistOne_used]

/-- No external call ever clears an entry of `usedSignatures`. -/
theorem applyOp_used_mono (recover : Nat → List Nat → Nat) (s : CState)
    (op : Op) (sig : List Nat) (h : s.usedSignatures sig = true) :
    (applyOp recover s op).usedSignatures sig = true := by
  cases op with
  | buy sender v g now signature =>
    simp only [applyOp]
    cases hE : buyTokens recover s sender v g now signature with
    | error e => exact h
    | ok s1 =>
      rw [((buyTokens_ok_iff recover s sender v g now signature s1).mp hE).2]
      exact buySuccess_used_mono s sender v now signature sig h
  | claim sender now =>
    simp only [applyOp]
    cases hE : claimTokens s sender now with
    | error e => exact h
    | ok p =>
      obtain ⟨s1, amt⟩ := p
      rw [((claimTokens_ok_iff s sender now s1 amt).mp hE).2.2.2.2.2.2]
      exact h
  | refund sender now =>
    simp only [applyOp]
    cases hE : claimRefund s sender now with
    | error e => exact h
    | ok p =>
      obtain ⟨s1, r⟩ := p
      rw [((claimRefund_ok_iff s sender now s1 r).mp hE).2.2.2.2.1]
      exact h
  | finalize sender =>
    simp only [applyOp]
    cases hE : finalizeSale s sender with
    | error e => exact h
    | ok s1 =>
      unfold finalizeSale at hE
      split_ifs at hE <;> cases hE <;> exact h
  | setWhitelist sender addrs status =>
    simp only [applyOp]
    cases hE : updateWhitelist s sender addrs status with
    | error e => exact h
    | ok s1 =>
      unfold updateWhitelist at hE
      split_ifs at hE <;> cases hE
      rw [foldl_updateWhitelist_used]
      exact h
  | setAntiBot sender pd mg wc sr =>
    simp only [applyOp]
    cases hE : updateAntiBotProtection s sender pd mg wc sr with
    | error e => exact h
    | ok s1 =>
      unfold updateAntiBotProtection at hE
      split_ifs at hE <;> cases hE
      exact h
  | setSigner sender ns =>
    simp only [applyOp]
    cases hE : updateSignerAddress s sender ns with
    | error e => exact h
    | ok s1 =>
      unfold updateSignerAddress at hE
      split_ifs at hE <;> cases hE
      exact h
  | doPause sender =>
    simp only [applyOp]
    cases hE : pauseC s sender with
    | error e => exact h
    | ok s1 =>
      unfold pauseC at hE
      split_ifs at hE <;> cases hE
      exact h
  | doUnpause sender =>
    simp only [applyOp]
    cases hE : unpauseC s sender with
    | error e => exact h
    | ok s1 =>
      unfold unpauseC at hE
      split_ifs at hE <;> cases hE
      exact h
  | withdraw sender ist amount =>
    simp only [applyOp]
    cases hE : emergencyWithdraw s sender ist amount with
    | error e => exact h
    | ok s1 =>
      unfold emergencyWithdraw at hE
      split_ifs at hE <;> cases hE <;> exact h

/-- Once a signature is marked used, it stays used through any
sequence of external calls. -/
theorem run_used_mono (recover : Nat → List Nat → Nat) (s : CState)
    (ops : List Op) (sig : List Nat) (h : s.usedSignatures sig = true) :
    (run recover s ops).usedSignatures sig = true := by
  induction ops generalizing s with
  | nil => exact h
  | cons op rest ih =>
    exact ih (applyOp recover s op) (applyOp_used_mono recover s op sig h)

theorem buySuccess_flag_mono (s : CState) (sender v now : Nat)
    (signature : List Nat) (a : Nat)
    (h : (s.participants a).isWhitelisted = true) :
    ((buySuccess s sender v now signature).participants a).isWhitelisted
      = true := by
  unfold buySuccess
  by_cases ha : a = sender
  · subst ha
    by_cases hsr : s.antiBotInfo.signatureRequired = true <;> simp [hsr, h]
  · by_cases hsr : s.antiBotInfo.signatureRequired = true <;> simp [hsr, ha, h]

theorem claimSuccess_flag (s : CState) (sender now amt a : Nat) :
    ((claimSuccess s sender now amt).participants a).isWhitelisted
      = (s.participants a).isWhitelisted := by
  unfold claimSuccess
  by_cases ha : a = sender
  · subst ha
    simp
  · simp [ha]

theorem refundSuccess_flag (s : CState) (sender a : Nat) :
    ((refundSuccess s sender).participants a).isWhitelisted
      = (s.participants a).isWhitelisted := by
  unfold refundSuccess
  by_cases ha : a = sender
  · subst ha
    simp
  · simp [ha]

theorem updateWhitelistOne_flag_mono (st : CState) (x : Nat) (status : Bool)
    (a : Nat) (h : (st.participants a).isWhitelisted = true) :
    ((updateWhitelistOne st x status).participants a).isWhitelisted
      = true := by
  unfold updateWhitelistOne
  split_ifs with hcond
  · by_cases ha : a = x
    · subst ha
      simp
    · simp [ha, h]
  · exact h

theorem foldl_updateWhitelist_flag_mono (addrs : List Nat) (status : Bool)
    (st : CState) (a : Nat) (h : (st.participants a).isWhitelisted = true) :
    (((addrs.foldl (fun st x => updateWhitelistOne st x status)
      st).participants a).isWhitelisted) = true := by
  induction addrs generalizing st with
  | nil => exact h
  | cons x rest ih =>
    rw [List.foldl_cons]
    exact ih (updateWhitelistOne st x status)
      (updateWhitelistOne_flag_mono st x status a h)

/-- No external call ever clears a participant's denormalized
`isWhitelisted` flag. -/
theorem applyOp_flag_mono (recover : Nat → List Nat → Nat) (s : CState)
    (op : Op) (a : Nat) (h : (s.participants a).isWhitelisted = true) :
    ((applyOp recover s op).participants a).isWhitelisted = true := by
  cases op with
  | buy sender v g now signature =>
    simp only [applyOp]
    cases hE : buyTokens recover s sender v g now signature with
    | error e => exact h
    | ok s1 =>
      rw [((buyTokens_ok_iff recover s sender v g now signature s1).mp hE).2]
      exact buySuccess_flag_mono s sender v now signature a h
  | claim sender now =>
    simp only [applyOp]
    cases hE : claimTokens s sender now with
    | error e => exact h
    | ok p =>
      obtain ⟨s1, amt⟩ := p
      rw [((claimTokens_ok_iff s sender now s1 amt).mp hE).2.2.2.2.2.2]
      rw [claimSuccess_flag]
      exact h
  | refund sender now =>
    simp only [applyOp]
    cases hE : claimRefund s sender now with
    | error e => exact h
    | ok p =>
      obtain ⟨s1, r⟩ := p
      rw [((claimRefund_ok_iff s sender now s1 r).mp hE).2.2.2.2.1]
      rw [refundSuccess_flag]
      exact h
  | finalize sender =>
    simp only [applyOp]
    cases hE : finalizeSale s sender with
    | error e => exact h
    | ok s1 =>
      unfold finalizeSale at hE
      split_ifs at hE <;> cases hE <;> exact h
  | setWhitelist sender addrs status =>
    simp only [applyOp]
    cases hE : updateWhitelist s sender addrs status with
    | error e => exact h
    | ok s1 =>
      unfold updateWhitelist at hE
      split_ifs at hE <;> cases hE
      exact foldl_updateWhitelist_flag_mono addrs status s a h
  | setAntiBot sender pd mg wc sr =>
    simp only [applyOp]
    cases hE : updateAntiBotProtection s sender pd mg wc sr with
    | error e => exact h
    | ok s1 =>
      unfold updateAntiBotProtection at hE
      split_ifs at hE <;> cases hE
      exact h
  | setSigner sender ns =>
    simp only [applyOp]
    cases hE : updateSignerAddress s sender ns with
    | error e => exact h
    | ok s1 =>
      unfold updateSignerAddress at hE
      split_ifs at hE <;> cases hE
      exact h
  | doPause sender =>
    simp only [applyOp]
    cases hE : pauseC s sender with
    | error e => exact h
    | ok s1 =>
      unfold pauseC at hE
      split_ifs at hE <;> cases hE
      exact h
  | doUnpause sender =>
    simp only [applyOp]
    cases hE : unpauseC s sender with
    | error e => exact h
    | ok s1 =>
      unfold unpauseC at hE
      split_ifs at hE <;> cases hE
      exact h
  | withdraw sender ist amount =>
    simp only [applyOp]
    cases hE : emergencyWithdraw s sender ist amount with
    | error e => exact h
    | ok s1 =>
      unfold emergencyWithdraw at hE
      split_ifs at hE <;> cases hE <;> exact h

/-- Once set, the denormalized whitelist flag survives any sequence of
external calls. -/
theorem run_flag_mono (recover : Nat → List Nat → Nat) (s : CState)
    (ops : List Op) (a : Nat)
    (h : (s.participants a).isWhitelisted = true) :
    ((run recover s ops).participants a).isWhitelisted = true := by
  induction ops generalizing s with
  | nil => exact h
  | cons op rest ih =>
    exact ih (applyOp recover s op) (applyOp_flag_mono recover s op a h)

theorem buySuccess_saleInfo (s : CState) (sender v now : Nat)
    (sig : List Nat) :
    (buySuccess s sender v now sig).saleInfo = s.saleInfo := by
  unfold buySuccess
  by_cases hsr : s.antiBotInfo.signatureRequired = true <;> simp [hsr]

theorem buySuccess_totalRaised (s : CState) (sender v now : Nat)
    (sig : List Nat) :
    (buySuccess s sender v now sig).totalRaised = s.totalRaised + v := by
  unfold buySuccess
  by_cases hsr : s.antiBotInfo.signatureRequired = true <;> simp [hsr]

theorem buySuccess_totalParticipants (s : CState) (sender v now : Nat)
    (sig : List Nat) :
    (buySuccess s sender v now sig).totalParticipants
      = if (s.participants sender).contribution = 0
        then s.totalParticipants + 1 else s.totalParticipants := by
  unfold buySuccess
  by_cases hsr : s.antiBotInfo.signatureRequired = true <;> simp [hsr]

theorem buySuccess_contribution_sender (s : CState) (sender v now : Nat)
    (sig : List Nat) :
    ((buySuccess s sender v now sig).participants sender).contribution
      = (s.participants sender).contribution + v := by
  unfold buySuccess
  by_cases hsr : s.antiBotInfo.signatureRequired = true <;> simp [hsr]

theorem buySuccess_participants_other (s : CState) (sender v now : Nat)
    (sig : List Nat) (a : Nat) (hne : a ≠ sender) :
    (buySuccess s sender v now sig).participants a = s.participants a := by
  unfold buySuccess
  by_cases hsr : s.antiBotInfo.signatureRequired = true <;> simp [hsr, hne]

/-- An accepted purchase pays at least `minPurchase`. -/
theorem buyError?_none_min (recover : Nat → List Nat → Nat) (s : CState)
    (sender v g now : Nat) (sig : List Nat)
    (hE : buyError? recover s sender v g now sig = none) :
    s.saleInfo.minPurchase ≤ v := by
  unfold buyError? at hE
  cases hM : modifierError? s sender g now with
  | some e =>
    rw [hM] at hE
    simp at hE
  | none =>
    rw [hM] at hE
    cases hS : signatureError? recover s sender sig with
    | some e =>
      rw [hS] at hE
      simp at hE
    | none =>
      rw [hS] at hE
      have hP : purchaseError? s sender v = none := hE
      unfold purchaseError? at hP
      split_ifs at hP with a1 a2 a3 a4 <;> try cases hP
      exact Nat.not_lt.mp a1

/-- Accounting invariant of purchase traces: `totalRaised` accumulates
exactly the accepted amounts, and `totalParticipants` counts the
addresses with a positive contribution (addresses drawn from the
support set `A`). -/
theorem runBuys_accounting (recover : Nat → List Nat → Nat)
    (evs : List BuyEv) :
    ∀ (s0 : CState) (A : Finset Nat),
    0 < s0.saleInfo.minPurchase →
    (∀ a, a ∉ A → (s0.participants a).contribution = 0) →
    s0.totalParticipants
      = (A.filter (fun a => 0 < (s0.participants a).contribution)).card →
    (∀ e ∈ evs, e.sender ∈ A) →
    (runBuys recover s0 evs).totalRaised
        = s0.totalRaised + ((acceptedBuys recover s0 evs).map
            (fun e => e.msgValue)).sum
    ∧ (runBuys recover s0 evs).totalParticipants
        = (A.filter (fun a =>
            0 < ((runBuys recover s0 evs).participants a).contribution)).card
    := by
  induction evs with
  | nil =>
    intro s0 A hmin hsupp hcount hA
    exact ⟨by simp [runBuys, acceptedBuys], hcount⟩
  | cons e rest ih =>
    intro s0 A hmin hsupp hcount hA
    have heA : e.sender ∈ A := hA e (List.mem_cons_self e rest)
    have hAr : ∀ e' ∈ rest, e'.sender ∈ A :=
      fun e' he' => hA e' (List.mem_cons_of_mem e he')
    cases hE : buyTokens recover s0 e.sender e.msgValue e.gasprice e.now
        e.signature with
    | error err =>
      have hstep : buyStep recover s0 e = s0 := by
        unfold buyStep
        rw [hE]
      have hrun : runBuys recover s0 (e :: rest)
          = runBuys recover s0 rest := by
        unfold runBuys
        rw [List.foldl_cons, hstep]
      have hacc : acceptedBuys recover s0 (e :: rest)
          = acceptedBuys recover s0 rest := by
        simp only [acceptedBuys, hE]
      rw [hrun, hacc]
      exact ih s0 A hmin hsupp hcount hAr
    | ok s1 =>
      have hs1 : s1 = buySuccess s0 e.sender e.msgValue e.now e.signature :=
        ((buyTokens_ok_iff recover s0 e.sender e.msgValue e.gasprice e.now
          e.signature s1).mp hE).2
      have hEnone := ((buyTokens_ok_iff recover s0 e.sender e.msgValue
        e.gasprice e.now e.signature s1).mp hE).1
      have hvmin : s0.saleInfo.minPurchase ≤ e.msgValue :=
        buyError?_none_min recover s0 e.sender e.msgValue e.gasprice e.now
          e.signature hEnone
      have hvpos : 0 < e.msgValue := Nat.lt_of_lt_of_le hmin hvmin
      have hmin1 : 0 < s1.saleInfo.minPurchase := by
        rw [hs1, buySuccess_saleInfo]
        exact hmin
      have hsupp1 : ∀ a, a ∉ A → (s1.participants a).contribution = 0 := by
        intro a ha
        have hne : a ≠ e.sender := fun hh => ha (hh ▸ heA)
        rw [hs1, buySuccess_participants_other _ _ _ _ _ _ hne]
        exact hsupp a ha
      have hcount1 : s1.totalParticipants = (A.filter (fun a =>
          0 < (s1.participants a).contribution)).card := by
        rw [hs1, buySuccess_totalParticipants]
        by_cases h0 : (s0.participants e.sender).contribution = 0
        · rw [if_pos h0, hcount]
          have hmem : e.sender ∉ A.filter (fun a =>
              0 < (s0.participants a).contribution) := by
            simp [h0]
          have hset : A.filter (fun a =>
              0 < ((buySuccess s0 e.sender e.msgValue e.now
                e.signature).participants a).contribution)
              = insert e.sender (A.filter (fun a =>
                  0 < (s0.participants a).contribution)) := by
            ext x
            by_cases hx : x = e.sender
            · subst hx
              simp [Finset.mem_insert, Finset.mem_filter, heA,
                buySuccess_contribution_sender, h0, hvpos]
            · simp [Finset.mem_insert, Finset.mem_filter, hx,
                buySuccess_participants_other _ _ _ _ _ _ hx]
          rw [hset, Finset.card_insert_of_not_mem hmem]
        · rw [if_neg h0, hcount]
          congr 1
          ext x
          by_cases hx : x = e.sender
          · subst hx
            simp only [Finset.mem_filter, buySuccess_contribution_sender]
            constructor
            · rintro ⟨hxa, -⟩
              exact ⟨hxa, by omega⟩
            · rintro ⟨hxa, -⟩
              exact ⟨hxa, Nat.pos_of_ne_zero h0⟩
          · simp [Finset.mem_filter,
              buySuccess_participants_other _ _ _ _ _ _ hx]
      obtain ⟨ihR, ihP⟩ := ih s1 A hmin1 hsupp1 hcount1 hAr
      have hstep : buyStep recover s0 e = s1 := by
        unfold buyStep
        rw [hE]
      have hrun : runBuys recover s0 (e :: rest)
          = runBuys recover s1 rest := by
        unfold runBuys
        rw [List.foldl_cons, hstep]
      have hacc : acceptedBuys recover s0 (e :: rest)
          = e :: acceptedBuys recover s1 rest := by
        simp only [acceptedBuys, hE]
      constructor
      · rw [hrun, ihR, hacc]
        have hR1 : s1.totalRaised = s0.totalRaised + e.msgValue := by
          rw [hs1, buySuccess_totalRaised]
        rw [List.map_cons, List.sum_cons, hR1]
        omega
      · rw [hrun]
        exact ihP

theorem csub_eq_some (a b c : Nat) (h : csub a b = some c) :
    b ≤ a ∧ c = a - b := by
  unfold csub at h
  split_ifs at h with hh
  exact ⟨hh, (Option.some.inj h).symm⟩

theorem cdiv_eq_some (a b c : Nat) (h : cdiv a b = some c) :
    b ≠ 0 ∧ c = a / b := by
  unfold cdiv at h
  split_ifs at h with hh
  exact ⟨hh, (Option.some.inj h).symm⟩

/-- The vesting schedule is monotone in time wherever it is defined. -/
theorem vestedClaimable_mono (vi : VestingInfo)
    (e basis claimed t1 t2 v1 v2 : Nat) (ht : t1 ≤ t2)
    (h1 : vestedClaimable vi e basis claimed t1 = some v1)
    (h2 : vestedClaimable vi e basis claimed t2 = some v2) : v1 ≤ v2 := by
  unfold vestedClaimable at h1 h2
  cases hTI : csub basis (basis * vi.initialRelease / 100) with
  | none =>
    rw [hTI] at h1
    dsimp only at h1
    cases h1
  | some V =>
    rw [hTI] at h1 h2
    dsimp only at h1 h2
    by_cases h1t : t1 ≤ e
    · rw [if_pos h1t] at h1
      obtain ⟨hcl1, hv1⟩ := csub_eq_some _ _ _ h1
      by_cases h2t : t2 ≤ e
      · rw [if_pos h2t] at h2
        obtain ⟨-, hv2⟩ := csub_eq_some _ _ _ h2
        omega
      · rw [if_neg h2t] at h2
        cases hD : cdiv (V * (t2 - e)) vi.vestingDuration with
        | none =>
          rw [hD] at h2
          dsimp only at h2
          cases h2
        | some vt =>
          rw [hD] at h2
          dsimp only at h2
          obtain ⟨hcl2, hv2⟩ := csub_eq_some _ _ _ h2
          omega
    · rw [if_neg h1t] at h1
      have h2t : ¬(t2 ≤ e) := by omega
      rw [if_neg h2t] at h2
      cases hD1 : cdiv (V * (t1 - e)) vi.vestingDuration with
      | none =>
        rw [hD1] at h1
        dsimp only at h1
        cases h1
      | some vt1 =>
        rw [hD1] at h1
        dsimp only at h1
        cases hD2 : cdiv (V * (t2 - e)) vi.vestingDuration with
        | none =>
          rw [hD2] at h2
          dsimp only at h2
          cases h2
        | some vt2 =>
          rw [hD2] at h2
          dsimp only at h2
          obtain ⟨hd1, hvt1⟩ := cdiv_eq_some _ _ _ hD1
          obtain ⟨-, hvt2⟩ := cdiv_eq_some _ _ _ hD2
          obtain ⟨hcl1, hv1⟩ := csub_eq_some _ _ _ h1
          obtain ⟨hcl2, hv2⟩ := csub_eq_some _ _ _ h2
          have hmono : vt1 ≤ vt2 := by
            rw [hvt1, hvt2]
            exact Nat.div_le_div_right (Nat.mul_le_mul_left _ (by omega))
          have hw : (if V < vt1 then V else vt1)
              ≤ (if V < vt2 then V else vt2) := by
            split_ifs with b1 b2 <;> omega
          omega

/-- `getClaimableAmount` is monotone in time wherever it is defined. -/
theorem getClaimable_mono (s : CState) (a t1 t2 v1 v2 : Nat) (ht : t1 ≤ t2)
    (h1 : getClaimableAmount s a t1 = some v1)
    (h2 : getClaimableAmount s a t2 = some v2) : v1 ≤ v2 := by
  unfold getClaimableAmount at h1 h2
  by_cases hc : (s.participants a).contribution = 0
  · rw [if_pos hc] at h1 h2
    cases h1
    cases h2
    exact Nat.le_refl _
  · rw [if_neg hc] at h1 h2
    by_cases hsc : s.totalRaised < s.saleInfo.softCap
    · rw [if_pos hsc] at h1 h2
      cases h1
      cases h2
      exact Nat.le_refl _
    · rw [if_neg hsc] at h1 h2
      by_cases hfin : s.saleFinalized = false
      · rw [if_pos hfin] at h1 h2
        cases h1
        cases h2
        exact Nat.le_refl _
      · rw [if_neg hfin] at h1 h2
        by_cases hv : s.vestingInfo.enabled = false
        · rw [if_pos hv] at h1 h2
          rw [h1] at h2
          cases h2
          exact Nat.le_refl _
        · rw [if_neg hv] at h1 h2
          exact vestedClaimable_mono s.vestingInfo s.saleInfo.endTime
            (claimBasis s a) (s.participants a).claimedTokens t1 t2 v1 v2
            ht h1 h2

/-- Vesting-enabled claimable amount at or before `endTime`, for a
fixed-price sale in a revert-free state. -/
theorem getClaimable_vesting_before (s : CState) (a now : Nat)
    (hfl : s.isFairlaunch = false)
    (hc : (s.participants a).contribution ≠ 0)
    (hsc : s.saleInfo.softCap ≤ s.totalRaised)
    (hfin : s.saleFinalized = true)
    (hv : s.vestingInfo.enabled = true)
    (hir : s.vestingInfo.initialRelease ≤ 100)
    (hle : now ≤ s.saleInfo.endTime)
    (hcl : (s.participants a).claimedTokens ≤
      (s.participants a).tokenAmount * s.vestingInfo.initialRelease / 100) :
    getClaimableAmount s a now
      = some ((s.participants a).tokenAmount * s.vestingInfo.initialRelease
          / 100 - (s.participants a).claimedTokens) := by
  have hinit_le : (s.participants a).tokenAmount *
      s.vestingInfo.initialRelease / 100 ≤ (s.participants a).tokenAmount := by
    calc (s.participants a).tokenAmount * s.vestingInfo.initialRelease / 100
        ≤ (s.participants a).tokenAmount * 100 / 100 :=
          Nat.div_le_div_right (Nat.mul_le_mul_left _ hir)
      _ = (s.participants a).tokenAmount := Nat.mul_div_cancel _ (by norm_num)
  simp only [getClaimableAmount, vestedClaimable, claimBasis]
  simp [hc, Nat.not_lt.mpr hsc, hfin, hfl, hv, csub, hinit_le, hle, hcl]

/-- Vesting-enabled claimable amount after `endTime`, for a fixed-price
sale in a revert-free state. -/
theorem getClaimable_vesting_after (s : CState) (a now : Nat)
    (hfl : s.isFairlaunch = false)
    (hc : (s.participants a).contribution ≠ 0)
    (hsc : s.saleInfo.softCap ≤ s.totalRaised)
    (hfin : s.saleFinalized = true)
    (hv : s.vestingInfo.enabled = true)
    (hir : s.vestingInfo.initialRelease ≤ 100)
    (hdur : 0 < s.vestingInfo.vestingDuration)
    (hgt : s.saleInfo.endTime < now)
    (hcl : (s.participants a).claimedTokens ≤
      (s.participants a).tokenAmount * s.vestingInfo.initialRelease / 100
      + min ((s.participants a).tokenAmount -
          (s.participants a).tokenAmount * s.vestingInfo.initialRelease / 100)
        (((s.participants a).tokenAmount -
          (s.participants a).tokenAmount * s.vestingInfo.initialRelease / 100)
          * (now - s.saleInfo.endTime) / s.vestingInfo.vestingDuration)) :
    getClaimableAmount s a now
      = some ((s.participants a).tokenAmount * s.vestingInfo.initialRelease
            / 100
          + min ((s.participants a).tokenAmount -
              (s.participants a).tokenAmount * s.vestingInfo.initialRelease
                / 100)
            (((s.participants a).tokenAmount -
              (s.participants a).tokenAmount * s.vestingInfo.initialRelease
                / 100) * (now - s.saleInfo.endTime) /
              s.vestingInfo.vestingDuration)
          - (s.participants a).claimedTokens) := by
  have hinit_le : (s.participants a).tokenAmount *
      s.vestingInfo.initialRelease / 100 ≤ (s.participants a).tokenAmount := by
    calc (s.participants a).tokenAmount * s.vestingInfo.initialRelease / 100
        ≤ (s.participants a).tokenAmount * 100 / 100 :=
          Nat.div_le_div_right (Nat.mul_le_mul_left _ hir)
      _ = (s.participants a).tokenAmount := Nat.mul_div_cancel _ (by norm_num)
  have hmin : ∀ x y : Nat, (if x < y then x else y) = min x y := by
    intro x y
    rcases Nat.lt_or_ge x y with h | h
    · rw [if_pos h, Nat.min_eq_left h.le]
    · rw [if_neg (Nat.not_lt.mpr h), Nat.min_eq_right h]
  simp only [getClaimableAmount, vestedClaimable, claimBasis]
  simp [hc, Nat.not_lt.mpr hsc, hfin, hfl, hv, csub, cdiv, hinit_le,
    Nat.not_le.mpr hgt, Nat.pos_iff_ne_zero.mp hdur, hmin, hcl]

/-! ### Theorems -/

/-- Claim C8: for every accepted purchase in fixed-price mode, the token
amount credited to the participant and added to `totalTokensSold`
equals exactly `amount * tokenPrice`. -/
theorem C8_fixed_price_token_amount (recover : Nat → List Nat → Nat)
    (s : CState) (sender v g now : Nat) (sig : List Nat) (s1 : CState)
    (hf : s.isFairlaunch = false)
    (h : buyTokens recover s sender v g now sig = .ok s1) :
    (s1.participants sender).tokenAmount
      = (s.participants sender).tokenAmount + v * s.saleInfo.tokenPrice
    ∧ s1.totalTokensSold = s.totalTokensSold + v * s.saleInfo.tokenPrice := by
  unfold buyTokens at h
  cases hE : buyError? recover s sender v g now sig with
  | some e => simp [hE] at h
  | none =>
    simp [hE] at h
    subst h
    unfold buySuccess
    by_cases hsr : s.antiBotInfo.signatureRequired = true <;> simp [hsr, hf]

/-- Witness for C8: buyer 1 purchases 50 units at price 2 in the
fixed-price sale `fixedInit` and is credited exactly 100 tokens. -/
theorem C8_fixed_price_token_amount_witness :
    (buySuccess fixedInit 1 50 10 []).totalTokensSold
      = fixedInit.totalTokensSold + 50 * fixedInit.saleInfo.tokenPrice :=
  (C8_fixed_price_token_amount recov0 fixedInit 1 50 0 10 []
    (buySuccess fixedInit 1 50 10 []) rfl rfl).2

/-- Claim C5: `finalizeSale` is owner-only and succeeds exactly once: a
second call fails with `AlreadyFinalized` and changes no state.  On the
successful call it sets `saleFinalized := true`; if
`totalRaised < softCap` it also sets `refundsEnabled := true`;
otherwise, if fair-launch, it sets `totalTokensSold` to the contract's
currently held sale-token balance; otherwise it changes nothing besides
the finalized flag. -/
theorem C5_finalize_once (recover : Nat → List Nat → Nat) (s : CState) :
    (∀ sender, sender ≠ s.owner → finalizeSale s sender = .error .notOwner)
    ∧ (s.saleFinalized = true →
        finalizeSale s s.owner = .error .alreadyFinalized
        ∧ ∀ sender, applyOp recover s (.finalize sender) = s)
    ∧ (s.saleFinalized = false →
        ∃ s1, finalizeSale s s.owner = .ok s1
          ∧ s1.saleFinalized = true
          ∧ (s.totalRaised < s.saleInfo.softCap →
              s1 = { s with saleFinalized := true, refundsEnabled := true })
          ∧ (s.saleInfo.softCap ≤ s.totalRaised → s.isFairlaunch = true →
              s1 = { s with saleFinalized := true,
                            totalTokensSold := s.tokenBalance })
          ∧ (s.saleInfo.softCap ≤ s.totalRaised → s.isFairlaunch = false →
              s1 = { s with saleFinalized := true })
          ∧ finalizeSale s1 s.owner = .error .alreadyFinalized) := by
  refine ⟨?_, ?_, ?_⟩
  · intro sender hs
    simp [finalizeSale, hs]
  · intro hfin
    constructor
    · simp [finalizeSale, hfin]
    · intro sender
      by_cases hs : sender = s.owner
      · subst hs
        simp [applyOp, finalizeSale, hfin]
      · simp [applyOp, finalizeSale, hs]
  · intro hfin
    by_cases hsc : s.totalRaised < s.saleInfo.softCap
    · refine ⟨{ s with saleFinalized := true, refundsEnabled := true },
        by simp [finalizeSale, hfin, hsc], rfl, fun _ => rfl,
        fun h _ => absurd hsc (Nat.not_lt.mpr h),
        fun h _ => absurd hsc (Nat.not_lt.mpr h),
        by simp [finalizeSale]⟩
    · by_cases hfl : s.isFairlaunch = true
      · have hok : finalizeSale s s.owner
            = .ok { s with saleFinalized := true, totalTokensSold := s.tokenBalance } := by
          simp [finalizeSale, hfin, hsc, hfl]
        refine ⟨_, hok, rfl,
          fun h => absurd h hsc, fun _ _ => rfl,
          fun _ h => absurd h (by simp [hfl]),
          by simp [finalizeSale]⟩
      · refine ⟨{ s with saleFinalized := true },
          by simp [finalizeSale, hfin, hsc, hfl], rfl,
          fun h => absurd h hsc, fun _ h => absurd h hfl, fun _ _ => rfl,
          by simp [finalizeSale]⟩

/-- Witness for C5: finalizing the fresh fair-launch sale `fairInit`
(owned by address 99, zero raised, soft cap 50) enables refunds. -/
theorem C5_finalize_once_witness :
    ∃ s1, finalizeSale fairInit fairInit.owner = .ok s1
      ∧ s1.saleFinalized = true
      ∧ s1 = { fairInit with saleFinalized := true, refundsEnabled := true } := by
  obtain ⟨s1, h1, h2, h3, -, -, -⟩ :=
    (C5_finalize_once recov0 fairInit).2.2 rfl
  exact ⟨s1, h1, h2, h3 (by decide)⟩

/-- Claim C6: during an active, unpaused sale the admission checks of
`buyTokens` run in the order whitelist membership (when enabled),
anti-bot protection window, gas-price ceiling, wallet cooldown, then
signature verification, the first failing check determining the
rejection reason; in particular a non-whitelisted buyer with
`now < startTime + protectionDelay` is rejected with `protectionActive`
even when the whitelist requirement is disabled, and the same buyer at
`now ≥ startTime + protectionDelay` passes the protection check. -/
theorem C6_admission_order (recover : Nat → List Nat → Nat) (s : CState)
    (sender v g now : Nat) (sig : List Nat)
    (hp : s.paused = false) (h1 : s.saleInfo.startTime ≤ now)
    (h2 : now ≤ s.saleInfo.endTime) (h3 : s.saleFinalized = false) :
    (s.saleInfo.whitelistEnabled = true → s.whitelist sender = false →
      buyTokens recover s sender v g now sig = .error .notWhitelisted)
    ∧ (s.whitelist sender = false →
       now < s.saleInfo.startTime + s.antiBotInfo.protectionDelay →
       s.saleInfo.whitelistEnabled = false →
       buyTokens recover s sender v g now sig = .error .protectionActive)
    ∧ ((s.saleInfo.whitelistEnabled = true → s.whitelist sender = true) →
       (now < s.saleInfo.startTime + s.antiBotInfo.protectionDelay →
         s.whitelist sender = true) →
       0 < s.antiBotInfo.maxGasPrice → s.antiBotInfo.maxGasPrice < g →
       buyTokens recover s sender v g now sig = .error .gasPriceTooHigh)
    ∧ ((s.saleInfo.whitelistEnabled = true → s.whitelist sender = true) →
       (now < s.saleInfo.startTime + s.antiBotInfo.protectionDelay →
         s.whitelist sender = true) →
       (0 < s.antiBotInfo.maxGasPrice → g ≤ s.antiBotInfo.maxGasPrice) →
       0 < s.antiBotInfo.walletCooldown →
       (s.participants sender).lastPurchaseTime ≠ 0 →
       now < (s.participants sender).lastPurchaseTime +
         s.antiBotInfo.walletCooldown →
       buyTokens recover s sender v g now sig = .error .cooldownActive)
    ∧ ((s.saleInfo.whitelistEnabled = true → s.whitelist sender = true) →
       (now < s.saleInfo.startTime + s.antiBotInfo.protectionDelay →
         s.whitelist sender = true) →
       (0 < s.antiBotInfo.maxGasPrice → g ≤ s.antiBotInfo.maxGasPrice) →
       (0 < s.antiBotInfo.walletCooldown →
         (s.participants sender).lastPurchaseTime = 0 ∨
         (s.participants sender).lastPurchaseTime +
           s.antiBotInfo.walletCooldown ≤ now) →
       s.antiBotInfo.signatureRequired = true → sig = [] →
       buyTokens recover s sender v g now sig = .error .signatureMissing)
    ∧ (s.whitelist sender = false → s.saleInfo.whitelistEnabled = false →
       s.saleInfo.startTime + s.antiBotInfo.protectionDelay ≤ now →
       buyTokens recover s sender v g now sig ≠ .error .protectionActive) := by
  refine ⟨?_, ?_, ?_, ?_, ?_, ?_⟩
  · intro hwe hw
    rw [buyTokens_error_iff]
    have hM : modifierError? s sender g now = some .notWhitelisted := by
      unfold modifierError?
      simp [hp, Nat.not_lt.mpr h1, Nat.not_lt.mpr h2, h3, hwe, hw]
    simp [buyError?, hM]
  · intro hw hpr hwf
    rw [buyTokens_error_iff]
    have hM : modifierError? s sender g now = some .protectionActive := by
      unfold modifierError?
      simp [hp, Nat.not_lt.mpr h1, Nat.not_lt.mpr h2, h3, hwf, hw, hpr]
    simp [buyError?, hM]
  · intro hwl hpw hg0 hgg
    have hc5 : ¬(s.saleInfo.whitelistEnabled = true ∧
        s.whitelist sender = false) := by
      rintro ⟨a, b⟩
      rw [hwl a] at b
      cases b
    have hc6 : ¬(now < s.saleInfo.startTime + s.antiBotInfo.protectionDelay ∧
        s.whitelist sender = false) := by
      rintro ⟨a, b⟩
      rw [hpw a] at b
      cases b
    rw [buyTokens_error_iff]
    have hM : modifierError? s sender g now = some .gasPriceTooHigh := by
      unfold modifierError?
      simp [hp, Nat.not_lt.mpr h1, Nat.not_lt.mpr h2, h3, hc5, hc6, hg0, hgg]
    simp [buyError?, hM]
  · intro hwl hpw hgle hcd0 hlp hcact
    have hc5 : ¬(s.saleInfo.whitelistEnabled = true ∧
        s.whitelist sender = false) := by
      rintro ⟨a, b⟩
      rw [hwl a] at b
      cases b
    have hc6 : ¬(now < s.saleInfo.startTime + s.antiBotInfo.protectionDelay ∧
        s.whitelist sender = false) := by
      rintro ⟨a, b⟩
      rw [hpw a] at b
      cases b
    have hc7 : ¬(0 < s.antiBotInfo.maxGasPrice ∧
        s.antiBotInfo.maxGasPrice < g) := by
      rintro ⟨a, b⟩
      exact absurd b (Nat.not_lt.mpr (hgle a))
    rw [buyTokens_error_iff]
    have hM : modifierError? s sender g now = some .cooldownActive := by
      unfold modifierError?
      simp [hp, Nat.not_lt.mpr h1, Nat.not_lt.mpr h2, h3, hc5, hc6, hc7,
        hcd0, hlp, hcact]
    simp [buyError?, hM]
  · intro hwl hpw hgle hcool hsr hsig
    have hc5 : ¬(s.saleInfo.whitelistEnabled = true ∧
        s.whitelist sender = false) := by
      rintro ⟨a, b⟩
      rw [hwl a] at b
      cases b
    have hc6 : ¬(now < s.saleInfo.startTime + s.antiBotInfo.protectionDelay ∧
        s.whitelist sender = false) := by
      rintro ⟨a, b⟩
      rw [hpw a] at b
      cases b
    have hc7 : ¬(0 < s.antiBotInfo.maxGasPrice ∧
        s.antiBotInfo.maxGasPrice < g) := by
      rintro ⟨a, b⟩
      exact absurd b (Nat.not_lt.mpr (hgle a))
    have hc8 : ¬(0 < s.antiBotInfo.walletCooldown ∧
        (s.participants sender).lastPurchaseTime ≠ 0 ∧
        now < (s.participants sender).lastPurchaseTime +
          s.antiBotInfo.walletCooldown) := by
      rintro ⟨a, b, cc⟩
      rcases hcool a with hz | hle
      · exact b hz
      · omega
    subst hsig
    rw [buyTokens_error_iff]
    have hM : modifierError? s sender g now = none := by
      unfold modifierError?
      simp [hp, Nat.not_lt.mpr h1, Nat.not_lt.mpr h2, h3, hc5, hc6, hc7, hc8]
    have hS : signatureError? recover s sender [] = some .signatureMissing := by
      unfold signatureError?
      simp [hsr]
    simp [buyError?, hM, hS]
  · intro hw hwf hge hcontra
    rw [buyTokens_error_iff] at hcontra
    unfold buyError? at hcontra
    cases hM : modifierError? s sender g now with
    | some e =>
      rw [hM] at hcontra
      simp at hcontra
      exact modifierError?_ne_pa s sender g now hge (by rw [hM, hcontra])
    | none =>
      rw [hM] at hcontra
      cases hS : signatureError? recover s sender sig with
      | some e =>
        rw [hS] at hcontra
        simp at hcontra
        exact signatureError?_ne_pa recover s sender sig (by rw [hS, hcontra])
      | none =>
        rw [hS] at hcontra
        exact purchaseError?_ne_pa s sender v hcontra

/-- Witness for C6: in the sale `protInit` (protection delay 3600,
whitelist globally disabled) the non-whitelisted buyer 5 at
`now = 1000 < 3600` is rejected with `protectionActive`. -/
theorem C6_admission_order_witness :
    buyTokens recov0 protInit 5 10 0 1000 [] = .error .protectionActive :=
  (C6_admission_order recov0 protInit 5 10 0 1000 [] rfl (by decide)
    (by decide) rfl).2.1 rfl (by decide) rfl

/-- Claim C7: when `signatureRequired` is set, every successful
purchase marks its signature as used; membership in `usedSignatures`
is permanent across every sequence of external calls; and a purchase
attempt presenting an already-used signature can never succeed — when
it reaches the signature verification step the rejection reason is
`signatureReused`. -/
theorem C7_signature_permanence (recover : Nat → List Nat → Nat) :
    (∀ (s : CState) (sig : List Nat) (ops : List Op),
        s.usedSignatures sig = true →
        (run recover s ops).usedSignatures sig = true)
    ∧ (∀ (s : CState) (sender v g now : Nat) (sig : List Nat) (s1 : CState),
        s.antiBotInfo.signatureRequired = true →
        buyTokens recover s sender v g now sig = .ok s1 →
        s1.usedSignatures sig = true)
    ∧ (∀ (s : CState) (sender v g now : Nat) (sig : List Nat),
        s.antiBotInfo.signatureRequired = true →
        s.usedSignatures sig = true →
        (∀ s1, buyTokens recover s sender v g now sig ≠ .ok s1)
        ∧ (s.paused = false → s.saleInfo.startTime ≤ now →
           now ≤ s.saleInfo.endTime → s.saleFinalized = false →
           (s.saleInfo.whitelistEnabled = true → s.whitelist sender = true) →
           (now < s.saleInfo.startTime + s.antiBotInfo.protectionDelay →
             s.whitelist sender = true) →
           (0 < s.antiBotInfo.maxGasPrice → g ≤ s.antiBotInfo.maxGasPrice) →
           (0 < s.antiBotInfo.walletCooldown →
             (s.participants sender).lastPurchaseTime = 0 ∨
             (s.participants sender).lastPurchaseTime +
               s.antiBotInfo.walletCooldown ≤ now) →
           sig ≠ [] →
           buyTokens recover s sender v g now sig
             = .error .signatureReused)) := by
  refine ⟨?_, ?_, ?_⟩
  · exact fun s sig ops h => run_used_mono recover s ops sig h
  · intro s sender v g now sig s1 hsr hok
    rw [((buyTokens_ok_iff recover s sender v g now sig s1).mp hok).2]
    unfold buySuccess
    simp [hsr]
  · intro s sender v g now sig hsr hused
    constructor
    · intro s1 hok
      have hnone := ((buyTokens_ok_iff recover s sender v g now sig s1).mp
        hok).1
      unfold buyError? at hnone
      cases hM : modifierError? s sender g now with
      | some e =>
        rw [hM] at hnone
        simp at hnone
      | none =>
        rw [hM] at hnone
        cases hS : signatureError? recover s sender sig with
        | some e =>
          rw [hS] at hnone
          simp at hnone
        | none =>
          exact signatureError?_ne_none_of_used recover s sender sig hsr
            hused hS
    · intro hp h1 h2 h3 hwl hpw hgle hcool hsig
      have hc5 : ¬(s.saleInfo.whitelistEnabled = true ∧
          s.whitelist sender = false) := by
        rintro ⟨a, b⟩
        rw [hwl a] at b
        cases b
      have hc6 : ¬(now < s.saleInfo.startTime +
          s.antiBotInfo.protectionDelay ∧ s.whitelist sender = false) := by
        rintro ⟨a, b⟩
        rw [hpw a] at b
        cases b
      have hc7 : ¬(0 < s.antiBotInfo.maxGasPrice ∧
          s.antiBotInfo.maxGasPrice < g) := by
        rintro ⟨a, b⟩
        exact absurd b (Nat.not_lt.mpr (hgle a))
      have hc8 : ¬(0 < s.antiBotInfo.walletCooldown ∧
          (s.participants sender).lastPurchaseTime ≠ 0 ∧
          now < (s.participants sender).lastPurchaseTime +
            s.antiBotInfo.walletCooldown) := by
        rintro ⟨a, b, cc⟩
        rcases hcool a with hz | hle
        · exact b hz
        · omega
      have hlen : sig.length ≠ 0 := fun hh => hsig (List.length_eq_zero.mp hh)
      rw [buyTokens_error_iff]
      have hM : modifierError? s sender g now = none := by
        unfold modifierError?
        simp [hp, Nat.not_lt.mpr h1, Nat.not_lt.mpr h2, h3, hc5, hc6, hc7,
          hc8]
      have hS : signatureError? recover s sender sig
          = some .signatureReused := by
        unfold signatureError?
        simp [hsr, hused, hlen]
      simp [buyError?, hM, hS]

/-- Witness for C7: in `sigUsedInit` (signature required, `[1]` already
consumed) buyer 3's attempt reusing signature `[1]` is rejected with
`signatureReused`. -/
theorem C7_signature_permanence_witness :
    buyTokens recov0 sigUsedInit 3 10 0 10 [1] = .error .signatureReused :=
  ((C7_signature_permanence recov0).2.2 sigUsedInit 3 10 0 10 [1] rfl
    (by decide)).2 rfl (by decide) (by decide) rfl (fun h => by cases h)
    (fun h => absurd h (by decide)) (fun h => absurd h (by decide))
    (fun h => absurd h (by decide)) (by decide)

/-- Claim C10: `updateWhitelist` with `status = true` sets the
denormalized `isWhitelisted` flag for an address with a nonzero
contribution; a later `updateWhitelist` with `status = false` removes
the address from the whitelist mapping but leaves the flag; the flag is
never cleared by any reachable sequence of calls; `getParticipantInfo`
therefore keeps reporting the address as whitelisted, while the
purchase-time whitelist check, which reads the mapping, rejects it with
`notWhitelisted`. -/
theorem C10_whitelist_flag_sticky (recover : Nat → List Nat → Nat) :
    (∀ (s : CState) (a : Nat), 0 < (s.participants a).contribution →
      ∃ s1, updateWhitelist s s.owner [a] true = .ok s1
        ∧ (s1.participants a).isWhitelisted = true)
    ∧ (∀ (s : CState) (a : Nat),
      ∃ s1, updateWhitelist s s.owner [a] false = .ok s1
        ∧ s1.whitelist a = false
        ∧ (s1.participants a).isWhitelisted
            = (s.participants a).isWhitelisted)
    ∧ (∀ (s : CState) (ops : List Op) (a : Nat),
      (s.participants a).isWhitelisted = true →
      ((run recover s ops).participants a).isWhitelisted = true)
    ∧ (∀ (s : CState) (a now : Nat),
      (s.participants a).isWhitelisted = true →
      (getParticipantInfo s a now).isWhitelisted = true)
    ∧ (∀ (s : CState) (sender v g now : Nat) (sig : List Nat),
      s.paused = false → s.saleInfo.startTime ≤ now →
      now ≤ s.saleInfo.endTime → s.saleFinalized = false →
      s.saleInfo.whitelistEnabled = true → s.whitelist sender = false →
      buyTokens recover s sender v g now sig = .error .notWhitelisted) := by
  refine ⟨?_, ?_, ?_, ?_, ?_⟩
  · intro s a hpos
    refine ⟨updateWhitelistOne s a true, ?_, ?_⟩
    · simp [updateWhitelist]
    · unfold updateWhitelistOne
      rw [if_pos ⟨rfl, hpos⟩]
      simp
  · intro s a
    refine ⟨updateWhitelistOne s a false, ?_, ?_, ?_⟩
    · simp [updateWhitelist]
    · unfold updateWhitelistOne
      simp
    · unfold updateWhitelistOne
      simp
  · exact fun s ops a h => run_flag_mono recover s ops a h
  · intro s a now h
    simp [getParticipantInfo, h]
  · intro s sender v g now sig hp h1 h2 h3 hwe hw
    rw [buyTokens_error_iff]
    have hM : modifierError? s sender g now = some .notWhitelisted := by
      unfold modifierError?
      simp [hp, Nat.not_lt.mpr h1, Nat.not_lt.mpr h2, h3, hwe, hw]
    simp [buyError?, hM]

/-- Witness for C10: in `wlFlagState`, participant 1 carries the
denormalized flag, so `getParticipantInfo` reports it whitelisted. -/
theorem C10_whitelist_flag_sticky_witness :
    (getParticipantInfo wlFlagState 1 50).isWhitelisted = true :=
  (C10_whitelist_flag_sticky recov0).2.2.2.1 wlFlagState 1 50 (by decide)

/-- Claim C4: in a finalized sale (where `refundsEnabled` reflects the
soft-cap outcome, as `finalizeSale` establishes), `claimRefund`
succeeds iff `totalRaised < softCap` and the participant contributed,
while `claimTokens` succeeds iff `softCap ≤ totalRaised` with a
positive claimable amount; the two are mutually exclusive; a
successful `claimRefund` returns the original contribution, zeroes the
participant's `contribution` and `tokenAmount`, and a second
`claimRefund` fails with `noContribution`. -/
theorem C4_refund_claim_exclusive (s : CState) (sender now : Nat)
    (hfin : s.saleFinalized = true)
    (hre : s.refundsEnabled
      = decide (s.totalRaised < s.saleInfo.softCap)) :
    ((∃ s1 r, claimRefund s sender now = .ok (s1, r)) ↔
      s.totalRaised < s.saleInfo.softCap ∧
        0 < (s.participants sender).contribution)
    ∧ ((∃ s1 amt, claimTokens s sender now = .ok (s1, amt)) ↔
      s.saleInfo.softCap ≤ s.totalRaised ∧
        0 < (s.participants sender).contribution ∧
        ∃ c, getClaimableAmount s sender now = some c ∧ 0 < c)
    ∧ ¬((∃ s1 r, claimRefund s sender now = .ok (s1, r)) ∧
        (∃ s1 amt, claimTokens s sender now = .ok (s1, amt)))
    ∧ (∀ s1 r, claimRefund s sender now = .ok (s1, r) →
        r = (s.participants sender).contribution ∧
        (s1.participants sender).contribution = 0 ∧
        (s1.participants sender).tokenAmount = 0 ∧
        claimRefund s1 sender now = .error .noContribution) := by
  have hg1 : ¬(now ≤ s.saleInfo.endTime ∧ s.saleFinalized = false) := by
    rintro ⟨-, hf⟩
    rw [hfin] at hf
    cases hf
  have hrefund : (∃ s1 r, claimRefund s sender now = .ok (s1, r)) ↔
      s.totalRaised < s.saleInfo.softCap ∧
        0 < (s.participants sender).contribution := by
    constructor
    · rintro ⟨s1, r, hok⟩
      obtain ⟨-, hlt, -, hne, -, -⟩ := (claimRefund_ok_iff s sender now
        s1 r).mp hok
      exact ⟨hlt, Nat.pos_of_ne_zero hne⟩
    · rintro ⟨hlt, hpos⟩
      refine ⟨refundSuccess s sender, (s.participants sender).contribution,
        (claimRefund_ok_iff s sender now _ _).mpr
          ⟨hg1, hlt, ?_, Nat.pos_iff_ne_zero.mp hpos, rfl, rfl⟩⟩
      rw [hre]
      simp [hlt]
  have hclaim : (∃ s1 amt, claimTokens s sender now = .ok (s1, amt)) ↔
      s.saleInfo.softCap ≤ s.totalRaised ∧
        0 < (s.participants sender).contribution ∧
        ∃ c, getClaimableAmount s sender now = some c ∧ 0 < c := by
    constructor
    · rintro ⟨s1, amt, hok⟩
      obtain ⟨-, hle, -, hne, hCa, hane, -⟩ := (claimTokens_ok_iff s sender
        now s1 amt).mp hok
      exact ⟨hle, Nat.pos_of_ne_zero hne, amt, hCa,
        Nat.pos_of_ne_zero hane⟩
    · rintro ⟨hle, hpos, c, hCa, hcpos⟩
      exact ⟨claimSuccess s sender now c, c,
        (claimTokens_ok_iff s sender now _ _).mpr
          ⟨hg1, hle, hfin, Nat.pos_iff_ne_zero.mp hpos, hCa,
            Nat.pos_iff_ne_zero.mp hcpos, rfl⟩⟩
  refine ⟨hrefund, hclaim, ?_, ?_⟩
  · rintro ⟨hr, hc⟩
    have h1 := (hrefund.mp hr).1
    have h2 := (hclaim.mp hc).1
    omega
  · intro s1 r hok
    obtain ⟨-, hlt, -, -, hs1, hr⟩ := (claimRefund_ok_iff s sender now
      s1 r).mp hok
    have hren : s.refundsEnabled = true := by
      rw [hre]
      simp [hlt]
    subst hs1
    refine ⟨hr, by simp [refundSuccess], by simp [refundSuccess], ?_⟩
    simp [claimRefund, refundSuccess, hfin, Nat.not_le.mpr hlt, hren]

/-- Witness for C4: in the failed sale `refundState`, participant 1's
refund succeeds. -/
theorem C4_refund_claim_exclusive_witness :
    ∃ s1 r, claimRefund refundState 1 200 = .ok (s1, r) :=
  (C4_refund_claim_exclusive refundState 1 200 rfl (by decide)).1.mpr
    ⟨by decide, by decide⟩

/-- Claim C3: with vesting enabled (valid vesting config, revert-free
state), `getClaimableAmount` returns
`initialAmount - claimedTokens` at or before `endTime`, and
`initialAmount + min(vestedAmount, vestedAmount * (now - endTime) /
vestingDuration) - claimedTokens` afterwards, with floor division
throughout; in the spec scenario (initialRelease 20, vestingDuration
864000 s, basis 100, nothing claimed) the claimable amount is 20 at
`endTime`, 60 at `endTime + 5` days, and 100 at `endTime + 10` days or
any later time. -/
theorem C3_vesting_schedule (s : CState) (a now : Nat)
    (hfl : s.isFairlaunch = false)
    (hc : (s.participants a).contribution ≠ 0)
    (hsc : s.saleInfo.softCap ≤ s.totalRaised)
    (hfin : s.saleFinalized = true)
    (hv : s.vestingInfo.enabled = true)
    (hir : s.vestingInfo.initialRelease ≤ 100)
    (hdur : 0 < s.vestingInfo.vestingDuration) :
    (now ≤ s.saleInfo.endTime →
      (s.participants a).claimedTokens ≤
        (s.participants a).tokenAmount * s.vestingInfo.initialRelease / 100 →
      getClaimableAmount s a now
        = some ((s.participants a).tokenAmount *
              s.vestingInfo.initialRelease / 100
            - (s.participants a).claimedTokens))
    ∧ (s.saleInfo.endTime < now →
      (s.participants a).claimedTokens ≤
        (s.participants a).tokenAmount * s.vestingInfo.initialRelease / 100
        + min ((s.participants a).tokenAmount -
            (s.participants a).tokenAmount * s.vestingInfo.initialRelease
              / 100)
          (((s.participants a).tokenAmount -
            (s.participants a).tokenAmount * s.vestingInfo.initialRelease
              / 100) * (now - s.saleInfo.endTime) /
            s.vestingInfo.vestingDuration) →
      getClaimableAmount s a now
        = some ((s.participants a).tokenAmount *
              s.vestingInfo.initialRelease / 100
            + min ((s.participants a).tokenAmount -
                (s.participants a).tokenAmount *
                  s.vestingInfo.initialRelease / 100)
              (((s.participants a).tokenAmount -
                (s.participants a).tokenAmount *
                  s.vestingInfo.initialRelease / 100) *
                (now - s.saleInfo.endTime) / s.vestingInfo.vestingDuration)
            - (s.participants a).claimedTokens))
    ∧ (getClaimableAmount vestState 1 1000 = some 20
       ∧ getClaimableAmount vestState 1 433000 = some 60
       ∧ getClaimableAmount vestState 1 865000 = some 100
       ∧ ∀ t, 865000 ≤ t → getClaimableAmount vestState 1 t = some 100) := by
  refine ⟨?_, ?_, rfl, rfl, rfl, ?_⟩
  · intro hle hcl
    exact getClaimable_vesting_before s a now hfl hc hsc hfin hv hir hle hcl
  · intro hgt hcl
    exact getClaimable_vesting_after s a now hfl hc hsc hfin hv hir hdur
      hgt hcl
  · intro t ht
    have h80 : (80 : Nat) ≤ 80 * (t - 1000) / 864000 := by
      rw [Nat.le_div_iff_mul_le (by norm_num)]
      have h1 : (864000 : Nat) ≤ t - 1000 := by omega
      exact Nat.mul_le_mul_left _ h1
    have h := getClaimable_vesting_after vestState 1 t rfl (by decide)
      (by decide) rfl rfl (by decide) (by decide)
      (lt_of_lt_of_le (by decide) ht) (Nat.zero_le _)
    simp only [show (vestState.participants 1).tokenAmount = 100 from rfl,
      show vestState.vestingInfo.initialRelease = 20 from rfl,
      show vestState.vestingInfo.vestingDuration = 864000 from rfl,
      show vestState.saleInfo.endTime = 1000 from rfl,
      show (vestState.participants 1).claimedTokens = 0 from rfl] at h
    rw [h]
    norm_num [Nat.min_eq_left h80]

/-- Witness for C3: the spec scenario value at `endTime + 5` days,
obtained from the theorem at the concrete state `vestState`. -/
theorem C3_vesting_schedule_witness :
    getClaimableAmount vestState 1 433000 = some 60 :=
  (C3_vesting_schedule vestState 1 433000 rfl (by decide) (by decide) rfl
    rfl (by decide) (by decide)).2.2.2.1

/-- Claim C2: over any sequence of purchase attempts (no refunds),
`totalRaised` equals its initial value plus the sum of the accepted
amounts, and `totalParticipants` counts the distinct addresses with a
positive contribution; moreover each accepted purchase increments
`totalParticipants` exactly when the buyer's contribution transitions
from zero (the spec's config invariant `0 < minPurchase` is assumed, so
accepted amounts are positive). -/
theorem C2_purchase_accounting (recover : Nat → List Nat → Nat)
    (s0 : CState) (evs : List BuyEv) (A : Finset Nat)
    (hmin : 0 < s0.saleInfo.minPurchase)
    (hsupp : ∀ a, a ∉ A → (s0.participants a).contribution = 0)
    (hcount : s0.totalParticipants
      = (A.filter (fun a => 0 < (s0.participants a).contribution)).card)
    (hA : ∀ e ∈ evs, e.sender ∈ A) :
    ((runBuys recover s0 evs).totalRaised
      = s0.totalRaised + ((acceptedBuys recover s0 evs).map
          (fun e => e.msgValue)).sum)
    ∧ ((runBuys recover s0 evs).totalParticipants
      = (A.filter (fun a =>
          0 < ((runBuys recover s0 evs).participants a).contribution)).card)
    ∧ (∀ (s : CState) (e : BuyEv) (s1 : CState),
        buyTokens recover s e.sender e.msgValue e.gasprice e.now
          e.signature = .ok s1 →
        s1.totalParticipants
          = if (s.participants e.sender).contribution = 0
            then s.totalParticipants + 1 else s.totalParticipants) := by
  obtain ⟨h1, h2⟩ := runBuys_accounting recover evs s0 A hmin hsupp hcount hA
  refine ⟨h1, h2, ?_⟩
  intro s e s1 hE
  rw [((buyTokens_ok_iff recover s e.sender e.msgValue e.gasprice e.now
    e.signature s1).mp hE).2, buySuccess_totalParticipants]

/-- Witness for C2: one accepted 50-unit purchase by buyer 1 in
`fixedInit` yields `totalRaised = 0 + 50` and one counted
participant. -/
theorem C2_purchase_accounting_witness :
    (runBuys recov0 fixedInit [⟨1, 50, 0, 10, []⟩]).totalRaised
      = fixedInit.totalRaised
        + ((acceptedBuys recov0 fixedInit [⟨1, 50, 0, 10, []⟩]).map
            (fun e => e.msgValue)).sum
    ∧ (runBuys recov0 fixedInit [⟨1, 50, 0, 10, []⟩]).totalParticipants
      = (({1} : Finset Nat).filter (fun a =>
          0 < ((runBuys recov0 fixedInit
            [⟨1, 50, 0, 10, []⟩]).participants a).contribution)).card := by
  obtain ⟨h1, h2, -⟩ := C2_purchase_accounting recov0 fixedInit
    [⟨1, 50, 0, 10, []⟩] {1} (by decide) (fun a _ => rfl)
    (by decide) (by decide)
  exact ⟨h1, h2⟩

/-- Claim C9 as frozen is refuted by the code: in `vest100`
(vesting enabled with `initialRelease = 100`, basis 100, nothing
claimed) the full basis of 100 tokens is claimable already at
`endTime = 1000`, strictly before `endTime + vestingDuration`. -/
theorem C9_full_basis_early_cex :
    vest100.vestingInfo.enabled = true
    ∧ (vest100.participants 1).tokenAmount = 100
    ∧ (vest100.participants 1).claimedTokens = 0
    ∧ vest100.saleInfo.endTime = 1000
    ∧ vest100.vestingInfo.vestingDuration = 864000
    ∧ getClaimableAmount vest100 1 1000 = some 100
    ∧ (1000 : Nat) < 1000 + 864000 :=
  ⟨rfl, rfl, rfl, rfl, rfl, rfl, by decide⟩

/-- Claim C9 (amended): `getClaimableAmount` is monotone in time
wherever it is defined; with vesting enabled in a revert-free
fixed-price state with nothing yet claimed, the initial-release portion
is fully claimable immediately at `endTime`; and provided
`initialRelease < 100`, the basis is positive and
`vestingDuration > 0`, the full basis becomes claimable exactly at
`endTime + vestingDuration` — strictly less is claimable at any earlier
time. -/
theorem C9_claimable_monotone (s : CState) (a : Nat) :
    (∀ t1 t2 v1 v2, t1 < t2 →
      getClaimableAmount s a t1 = some v1 →
      getClaimableAmount s a t2 = some v2 → v1 ≤ v2)
    ∧ (s.isFairlaunch = false →
       (s.participants a).contribution ≠ 0 →
       s.saleInfo.softCap ≤ s.totalRaised →
       s.saleFinalized = true →
       s.vestingInfo.enabled = true →
       s.vestingInfo.initialRelease ≤ 100 →
       (s.participants a).claimedTokens = 0 →
       getClaimableAmount s a s.saleInfo.endTime
         = some ((s.participants a).tokenAmount *
             s.vestingInfo.initialRelease / 100))
    ∧ (s.isFairlaunch = false →
       (s.participants a).contribution ≠ 0 →
       s.saleInfo.softCap ≤ s.totalRaised →
       s.saleFinalized = true →
       s.vestingInfo.enabled = true →
       s.vestingInfo.initialRelease < 100 →
       0 < (s.participants a).tokenAmount →
       0 < s.vestingInfo.vestingDuration →
       (s.participants a).claimedTokens = 0 →
       (∀ t, s.saleInfo.endTime + s.vestingInfo.vestingDuration ≤ t →
         getClaimableAmount s a t = some (s.participants a).tokenAmount)
       ∧ (∀ t, t < s.saleInfo.endTime + s.vestingInfo.vestingDuration →
         ∃ v, getClaimableAmount s a t = some v
           ∧ v < (s.participants a).tokenAmount)) := by
  refine ⟨?_, ?_, ?_⟩
  · exact fun t1 t2 v1 v2 ht => getClaimable_mono s a t1 t2 v1 v2 ht.le
  · intro hfl hc hsc hfin hv hir hcl0
    have h := getClaimable_vesting_before s a s.saleInfo.endTime hfl hc hsc
      hfin hv hir (Nat.le_refl _) (by rw [hcl0]; exact Nat.zero_le _)
    rw [hcl0] at h
    simpa using h
  · intro hfl hc hsc hfin hv hirlt hT hdur hcl0
    have hir : s.vestingInfo.initialRelease ≤ 100 := hirlt.le
    have hIltT : (s.participants a).tokenAmount *
        s.vestingInfo.initialRelease / 100
        < (s.participants a).tokenAmount := by
      rw [Nat.div_lt_iff_lt_mul (by norm_num)]
      exact mul_lt_mul_of_pos_left hirlt hT
    constructor
    · intro t htge
      have hgt : s.saleInfo.endTime < t := by omega
      have h := getClaimable_vesting_after s a t hfl hc hsc hfin hv hir
        hdur hgt (by rw [hcl0]; exact Nat.zero_le _)
      have hVle : ((s.participants a).tokenAmount -
          (s.participants a).tokenAmount * s.vestingInfo.initialRelease
            / 100)
          ≤ ((s.participants a).tokenAmount -
            (s.participants a).tokenAmount * s.vestingInfo.initialRelease
              / 100) * (t - s.saleInfo.endTime) /
            s.vestingInfo.vestingDuration := by
        rw [Nat.le_div_iff_mul_le hdur]
        exact Nat.mul_le_mul_left _ (by omega)
      rw [h, hcl0, Nat.min_eq_left hVle]
      congr 1
      omega
    · intro t htlt
      by_cases hte : t ≤ s.saleInfo.endTime
      · have h := getClaimable_vesting_before s a t hfl hc hsc hfin hv hir
          hte (by rw [hcl0]; exact Nat.zero_le _)
        exact ⟨_, h, by rw [hcl0]; omega⟩
      · have hgt : s.saleInfo.endTime < t := by omega
        have h := getClaimable_vesting_after s a t hfl hc hsc hfin hv hir
          hdur hgt (by rw [hcl0]; exact Nat.zero_le _)
        have hVpos : 0 < (s.participants a).tokenAmount -
            (s.participants a).tokenAmount * s.vestingInfo.initialRelease
              / 100 := by omega
        have hvtlt : ((s.participants a).tokenAmount -
            (s.participants a).tokenAmount * s.vestingInfo.initialRelease
              / 100) * (t - s.saleInfo.endTime) /
            s.vestingInfo.vestingDuration
            < (s.participants a).tokenAmount -
              (s.participants a).tokenAmount * s.vestingInfo.initialRelease
                / 100 := by
          rw [Nat.div_lt_iff_lt_mul hdur]
          exact mul_lt_mul_of_pos_left (by omega) hVpos
        refine ⟨_, h, ?_⟩
        rw [hcl0, Nat.min_eq_right hvtlt.le]
        omega

/-- Witness for C9: for participant 1 of `vestState` the claimable
amount at `endTime` (20) does not exceed the amount five days later
(60). -/
theorem C9_claimable_monotone_witness :
    ∃ v1 v2, getClaimableAmount vestState 1 1000 = some v1
      ∧ getClaimableAmount vestState 1 433000 = some v2 ∧ v1 ≤ v2 :=
  ⟨20, 60, rfl, rfl,
    (C9_claimable_monotone vestState 1).1 1000 433000 20 60 (by decide)
      rfl rfl⟩

/-- Claim C1 fails on the code: in the reachable fair-launch sale
`fairFinal` (buyers 1 and 2 each contributed 50, 100 sale tokens held
at finalization, so the frozen pool `totalTokensSold = 100`), the two
participants' claimable amounts are 100 each — their sum 200 exceeds
the pool, because `getClaimableAmount` adds the still-held balance to
`totalTokensSold`, which `finalizeSale` had just set to that same
balance.  Every address other than 1 and 2 has no contribution and
claimable 0, so the sum over all participants is exactly 200. -/
theorem C1_fairlaunch_sum_exceeds_pool :
    fairFinal.isFairlaunch = true
    ∧ fairFinal.saleFinalized = true
    ∧ fairFinal.saleInfo.softCap ≤ fairFinal.totalRaised
    ∧ fairFinal.totalTokensSold = 100
    ∧ getClaimableAmount fairFinal 1 150 = some 100
    ∧ getClaimableAmount fairFinal 2 150 = some 100
    ∧ (∀ b, b ≠ 1 → b ≠ 2 → getClaimableAmount fairFinal b 150 = some 0)
    ∧ ¬(100 + 100 ≤ fairFinal.totalTokensSold) := by
  have hpf : fairFinal.participants = fun b =>
      if b = 2 then
        { contribution := 50, tokenAmount := 0, claimedTokens := 0,
          isWhitelisted := false, lastClaimTime := 0,
          lastPurchaseTime := 10 }
      else if b = 1 then
        { contribution := 50, tokenAmount := 0, claimedTokens := 0,
          isWhitelisted := false, lastClaimTime := 0,
          lastPurchaseTime := 10 }
      else Participant.zero := rfl
  refine ⟨rfl, rfl, by decide, rfl, rfl, rfl, ?_, by decide⟩
  intro b hb1 hb2
  unfold getClaimableAmount
  rw [hpf]
  simp [hb1, hb2, Participant.zero]

end Presale
